import Mathlib

set_option maxRecDepth 8000

/-!
Verification development for the Roadtrip Weather Planning Tool.

Shallow embedding of the route-planning core of the repository:
the greedy nearest-neighbor route builder (data_utils.get_route), the
route table editor and finalizer (data_utils.update_route_table), the
historical-dailies aggregation (weather_utils.get_historical_dailies),
the weather-window string parser (plotting_utils.extract_middle_target)
and the city-catalog maintenance (data_utils.remove_city and
data_utils.remove_info_old_city).

External collaborators (the geopy geodesic distance, the Meteostat Daily
fetch, Python's calendar decomposition of dates and Python's float
formatting) are modelled as explicit function parameters; dates are day
numbers (Int), a timedelta of d days is integer addition.  Cell values
of the route table are dynamically typed in the source (a pandas object
dataframe), modelled by the inductive type Val.
-/

/-- A dynamically typed cell value of the route dataframe: the source keeps
city names (str), distance displays (str or the int 0 placeholder),
travel-day counts (int) and arrival dates (date) in object columns, and the
streamlit edit protocol can write arbitrary values into any cell. -/
inductive Val where
  | intV : Int → Val
  | strV : String → Val
  | dateV : Int → Val
deriving DecidableEq, Repr

/-- One row of the panam_cities coordinate dataframe: columns
country, city, lat, lng (data_utils.load_data). -/
structure CityRec where
  country : String
  city : String
  lat : Rat
  lng : Rat
deriving DecidableEq, Repr

/-- One row of the route dataframe built by get_route: columns
city, est_dist, days_to_city, arrival_date (in this column order). -/
structure Stop where
  city : Val
  est_dist : Val
  days_to_city : Val
  arrival_date : Val
deriving DecidableEq, Repr

/-- Python's round to the nearest integer (banker's rounding:
halves go to the even neighbour). -/
def pyRound (q : Rat) : Int :=
  let f := q.floor
  let frac := q - f
  if frac < 1/2 then f
  else if 1/2 < frac then f + 1
  else if f % 2 = 0 then f else f + 1

/-- pandas Series.round(1): round to one decimal place. -/
def round1 (q : Rat) : Rat := (pyRound (10 * q) : Rat) / 10

/-- date + timedelta(days = m): defined only when the left operand is a
date and the day count an int; any other operand types raise TypeError
in Python, modelled as none. -/
def tdAdd : Val → Val → Option Val
  | Val.dateV a, Val.intV m => some (Val.dateV (a + m))
  | _, _ => none

/-! ## Weather window strings (update_route_table, extract_middle_target) -/

/-- Whether sep is a prefix of the second list (helper for pySplit,
mirroring Python's substring test during str.split). -/
def startsWith : List Char → List Char → Bool
  | [], _ => true
  | _ :: _, [] => false
  | a :: as, b :: bs => (a == b) && startsWith as bs

/-- Python str.split(sep) on character lists: scan left to right, cut at
each non-overlapping occurrence of sep.  Python raises on an empty
separator; the 0 < sep.length guard keeps the recursion well founded and
all uses in this file pass a two-character separator. -/
def pySplit (sep : List Char) : List Char → List (List Char)
  | [] => [[]]
  | c :: rest =>
    if startsWith sep (c :: rest) = true ∧ 0 < sep.length then
      [] :: pySplit sep ((c :: rest).drop sep.length)
    else
      match pySplit sep rest with
      | [] => [[c]]
      | h2 :: t => (c :: h2) :: t
termination_by s => s.length
decreasing_by
  · simp only [List.length_drop, List.length_cons]
    omega
  · simp only [List.length_cons]
    omega

/-- The f-string format of update_route_table line 299:
the weather window display string "({pre}) {on} ({post})". -/
def formatWindow (pre mid post : List Char) : List Char :=
  ('(' :: pre) ++ (')' :: ' ' :: mid) ++ (' ' :: '(' :: post) ++ [')']

/-- plotting_utils.extract_middle_target: take the substring after the
last occurrence of ") " and before the first following occurrence of " ("
via x.split(') ')[-1].split(' (')[0].  Python's [-1] on the never-empty
split result is the last element, [0] the first. -/
def extract_middle_target (s : List Char) : List Char :=
  (pySplit [' ', '('] ((pySplit [')', ' '] s).getLastD [])).headD []

/-! ## Route builder (data_utils.get_route) -/

/-- Coordinates of the first row of next_cities whose city column equals
name (next_cities.loc[next_cities.city == current_city].coords).  When no
row matches, geopy coerces the empty selection to Point(0, 0), hence the
(0, 0) default; the loop only ever matches at most one row for the inputs
considered here (distinct city names). -/
def findCoords (next_cities : List CityRec) (name : String) : Rat × Rat :=
  match next_cities.find? (fun c => c.city == name) with
  | some c => (c.lat, c.lng)
  | none => (0, 0)

/-- next_cities.sort_values(by='est_dist') followed by .iloc[0]: selects a
row of minimal est_dist together with that distance.  pandas' default
quicksort leaves the order of ties unspecified, so the embedding keeps
list order and returns the first row attaining the minimum. -/
def pickMin (f : CityRec → Rat) : List CityRec → Option (CityRec × Rat)
  | [] => none
  | c :: cs => some (cs.foldl (fun p x => if f x < p.2 then (x, f x) else p) (c, f c))

/-- The distance display written onto the previous stop:
str(round(est_dist)) + ' km'. -/
def mkKm (d : Rat) : Val := Val.strV (toString (pyRound d) ++ " km")

/-- The loop body of get_route (for i in range(len(panam_cities)-1)).
State: remaining fuel, current city name, the next_cities frame, and the
route rows built so far in reverse order (the head is the stop at the
current last position).  Each iteration looks up the current coordinates,
drops the current city from next_cities, picks the closest remaining row,
appends it with zero est_dist and days_to_city and with arrival date
previous arrival + timedelta(previous days), and rewrites the previous
stop's est_dist to the rounded distance.  A none models a Python
exception (iloc[0] on an empty frame, or a TypeError in the timedelta
addition); neither occurs for the inputs considered by the theorems
below. -/
def routeLoop (get_lat_lng_dist : Rat × Rat → Rat × Rat → Rat) :
    Nat → String → List CityRec → List Stop → Option (List Stop)
  | 0, _, _, racc => some racc.reverse
  | k + 1, current_city, next_cities, racc =>
    let current_coords := findCoords next_cities current_city
    let rest := next_cities.filter (fun c => c.city != current_city)
    match pickMin (fun c => get_lat_lng_dist (c.lat, c.lng) current_coords) rest with
    | none => none
    | some (cmin, est_dist) =>
      match racc with
      | [] => none
      | prev :: racc2 =>
        match tdAdd prev.arrival_date prev.days_to_city with
        | none => none
        | some newArrival =>
          routeLoop get_lat_lng_dist k cmin.city rest
            ({ city := Val.strV cmin.city, est_dist := Val.intV 0,
               days_to_city := Val.intV 0, arrival_date := newArrival }
              :: { prev with est_dist := mkKm est_dist } :: racc2)

/-- data_utils.get_route: row 0 is the start city with zero distance and
days and the start date as arrival date; then len(panam_cities)-1 greedy
iterations.  get_lat_lng_dist is the geopy geodesic distance (an external
library), passed as a parameter. -/
def get_route (get_lat_lng_dist : Rat × Rat → Rat × Rat → Rat)
    (route_start_date : Int) (route_start_city : String)
    (panam_cities : List CityRec) : Option (List Stop) :=
  routeLoop get_lat_lng_dist (panam_cities.length - 1) route_start_city panam_cities
    [{ city := Val.strV route_start_city, est_dist := Val.intV 0,
       days_to_city := Val.intV 0, arrival_date := Val.dateV route_start_date }]

/-! ## Historical dailies (weather_utils.get_historical_dailies) -/

/-- weather_utils.START_YEAR. -/
def START_YEAR : Nat := 1991

/-- weather_utils.END_YEAR. -/
def END_YEAR : Nat := 2020

/-- The years iterated by get_historical_dailies:
Python range(START_YEAR, END_YEAR), whose upper bound is exclusive. -/
def hd_years : List Nat := List.range' START_YEAR (END_YEAR - START_YEAR)

/-- One row of a Meteostat Daily fetch for a single day (the columns read
by the source). -/
structure DailyRow where
  tavg : Rat
  tmin : Rat
  tmax : Rat
  prcp : Rat
  snow : Rat
deriving DecidableEq, Repr

/-- The series returned by get_historical_dailies: per-variable means
(none models pandas NaN on an empty column) plus the bookkeeping fields. -/
structure HDResult where
  tavg : Option Rat
  tmin : Option Rat
  tmax : Option Rat
  prcp : Option Rat
  snow : Option Rat
  available_years : Nat
  min_year_available : Option Nat
  max_year_available : Option Nat
deriving DecidableEq, Repr

/-- pandas mean of a column: none (NaN) when no values are present. -/
def ratMean (l : List Rat) : Option Rat :=
  match l with
  | [] => none
  | _ => some (l.sum / (l.length : Rat))

/-- weather_utils.get_historical_dailies: concatenate the Daily fetches
for datetime(year, month, day) over year in range(START_YEAR, END_YEAR)
and take column means.  fetch is the Meteostat collaborator: it returns
the (at most one) daily row for a station, year, month and day.
min/max_year_available are the min/max of the datetime index, i.e. the
first and last year with data (hd_years is ascending). -/
def get_historical_dailies (fetch : String → Nat → Nat → Nat → Option DailyRow)
    (station_id : String) (day month : Nat) : HDResult :=
  let rows := hd_years.filterMap (fun year => fetch station_id year month day)
  let yearsWith := hd_years.filter (fun year => (fetch station_id year month day).isSome)
  { tavg := ratMean (rows.map (fun r => r.tavg))
    tmin := ratMean (rows.map (fun r => r.tmin))
    tmax := ratMean (rows.map (fun r => r.tmax))
    prcp := ratMean (rows.map (fun r => r.prcp))
    snow := ratMean (rows.map (fun r => r.snow))
    available_years := rows.length
    min_year_available := yearsWith.head?
    max_year_available := yearsWith.getLast? }

/-- Modelled from the spec: the same daily aggregation over the
configured climate period 1991-2020 inclusive ("the set of years
aggregated is exactly 1991 through 2020 inclusive"); the code of
get_historical_dailies is the authority for what runs, this definition
expresses what the spec says it should aggregate. -/
def spec_climate_years : List Nat := List.range' START_YEAR (END_YEAR - START_YEAR + 1)

/-- Modelled from the spec: get_historical_dailies with the climate
period 1991-2020 inclusive (see spec_climate_years). -/
def get_historical_dailies_spec (fetch : String → Nat → Nat → Nat → Option DailyRow)
    (station_id : String) (day month : Nat) : HDResult :=
  let rows := spec_climate_years.filterMap (fun year => fetch station_id year month day)
  let yearsWith := spec_climate_years.filter (fun year => (fetch station_id year month day).isSome)
  { tavg := ratMean (rows.map (fun r => r.tavg))
    tmin := ratMean (rows.map (fun r => r.tmin))
    tmax := ratMean (rows.map (fun r => r.tmax))
    prcp := ratMean (rows.map (fun r => r.prcp))
    snow := ratMean (rows.map (fun r => r.snow))
    available_years := rows.length
    min_year_available := yearsWith.head?
    max_year_available := yearsWith.getLast? }

/-! ## Route table editor and finalizer (data_utils.update_route_table) -/

/-- The pending edit state kept in st.session_state['route_table_edits']:
deleted row positions (into the base route) and edited cells.  An edited
cell is keyed by the string "row:column"; the pair of parsed numbers and
the new value are kept here, with the -1 column shift applied later as in
the source. -/
structure Edits where
  deleted_rows : List Nat
  edited_cells : List (Nat × Nat × Val)
deriving Repr

/-- indices_to_keep = [i for i in range(len(route_df)) if i not in
deleted_rows]. -/
def keepIndices (n : Nat) (deleted : List Nat) : List Nat :=
  (List.range n).filter (fun i => !(deleted.contains i))

/-- route_df.iloc[indices_to_keep]. -/
def deleteRows (route : List Stop) (deleted : List Nat) : List Stop :=
  (keepIndices route.length deleted).filterMap (fun i => route[i]?)

/-- Positional column write route_df.iloc[row, j] = v on the 4-column
route frame (city, est_dist, days_to_city, arrival_date).  pandas iloc
accepts negative positions -4..-1 (wrapping from the end) and raises
IndexError outside -4..3, modelled as none. -/
def setColIdx (s : Stop) (j : Int) (v : Val) : Option Stop :=
  if j = 0 ∨ j = -4 then some { s with city := v }
  else if j = 1 ∨ j = -3 then some { s with est_dist := v }
  else if j = 2 ∨ j = -2 then some { s with days_to_city := v }
  else if j = 3 ∨ j = -1 then some { s with arrival_date := v }
  else none

/-- One edited cell: change_i = int(key.split(':')[0]),
change_j = int(key.split(':')[1]) - 1, then
route_df.iloc[change_i, change_j] = new_val.  The parsed row and column
keys are non-negative; a row position past the end raises IndexError
(none). -/
def applyEdit (route : List Stop) (r ck : Nat) (v : Val) : Option (List Stop) :=
  match route[r]? with
  | none => none
  | some s => (setColIdx s ((ck : Int) - 1) v).map (fun s2 => route.set r s2)

/-- The for-change-in-changes loop, applied in dict insertion order. -/
def applyEdits (route : List Stop) : List (Nat × Nat × Val) → Option (List Stop)
  | [] => some route
  | (r, ck, v) :: rest => (applyEdit route r ck v).bind (fun r2 => applyEdits r2 rest)

/-- The arrival-date pass: for i in range(1, len(route_df)):
arrival_date[i] = arrival_date[i-1] + timedelta(days = days_to_city[i-1]),
reading the already-updated predecessor.  A TypeError in the addition
(non-date arrival or non-int day count) is none. -/
def recompute : List Stop → Option (List Stop)
  | [] => some []
  | [s] => some [s]
  | s :: t :: rest =>
    match tdAdd s.arrival_date s.days_to_city with
    | none => none
    | some a => (recompute ({ t with arrival_date := a } :: rest)).map (fun r => s :: r)
termination_by l => l.length

/-- The five weather-window display strings attached to one stop. -/
structure Window where
  tavg : List Char
  tmin : List Char
  tmax : List Char
  prcp : List Char
  snow : List Char
deriving DecidableEq, Repr

/-- Build one stop's weather window from the three daily queries:
each variable is formatted as "({pre}) {on} ({post})" after .round(1).
frepr is Python's float formatting (external), applied to the rounded
mean (none is pandas NaN, printed nan). -/
def mkWindow (frepr : Option Rat → List Char) (pre onv post : HDResult) : Window :=
  { tavg := formatWindow (frepr (pre.tavg.map round1)) (frepr (onv.tavg.map round1))
      (frepr (post.tavg.map round1))
    tmin := formatWindow (frepr (pre.tmin.map round1)) (frepr (onv.tmin.map round1))
      (frepr (post.tmin.map round1))
    tmax := formatWindow (frepr (pre.tmax.map round1)) (frepr (onv.tmax.map round1))
      (frepr (post.tmax.map round1))
    prcp := formatWindow (frepr (pre.prcp.map round1)) (frepr (onv.prcp.map round1))
      (frepr (post.prcp.map round1))
    snow := formatWindow (frepr (pre.snow.map round1)) (frepr (onv.snow.map round1))
      (frepr (post.snow.map round1)) }

/-- The weather lookup for one route row: read the city cell (a dict key
into city_normals, KeyError when it is not a known city name), the
arrival date (attribute access .day/.month fails on a non-date), query
the historical dailies at the arrival date and 3 days before and after,
and format the window.  dayOf/monthOf are the calendar decomposition of
a day number (Python datetime, external); normalsStation is
city_normals[city]['Station ID']. -/
def stopWeather (fetch : String → Nat → Nat → Nat → Option DailyRow)
    (normalsStation : String → Option String) (dayOf monthOf : Int → Nat)
    (frepr : Option Rat → List Char) (s : Stop) : Option (Val × Window) :=
  match s.arrival_date with
  | Val.dateV d =>
    match s.city with
    | Val.strV c =>
      match normalsStation c with
      | some station_id =>
        let pre := get_historical_dailies fetch station_id (dayOf (d - 3)) (monthOf (d - 3))
        let onv := get_historical_dailies fetch station_id (dayOf d) (monthOf d)
        let post := get_historical_dailies fetch station_id (dayOf (d + 3)) (monthOf (d + 3))
        some (Val.strV c, mkWindow frepr pre onv post)
      | none => none
    | _ => none
  | _ => none

/-- Python dict assignment weather_info[city] = window: overwrite in
place when the key exists, else append. -/
def dictInsert (k : Val) (w : Window) : List (Val × Window) → List (Val × Window)
  | [] => [(k, w)]
  | (k2, w2) :: t => if k2 = k then (k, w) :: t else (k2, w2) :: dictInsert k w t

/-- Python dict lookup (keys are unique by construction). -/
def lookupWin (k : Val) : List (Val × Window) → Option Window
  | [] => none
  | (k2, w2) :: t => if k2 = k then some w2 else lookupWin k t

/-- The for-i-in-range(len(route_df)) loop filling weather_info. -/
def buildWeatherInfo (fetch : String → Nat → Nat → Nat → Option DailyRow)
    (normalsStation : String → Option String) (dayOf monthOf : Int → Nat)
    (frepr : Option Rat → List Char) :
    List Stop → List (Val × Window) → Option (List (Val × Window))
  | [], d => some d
  | s :: rest, d =>
    match stopWeather fetch normalsStation dayOf monthOf frepr s with
    | none => none
    | some (k, w) => buildWeatherInfo fetch normalsStation dayOf monthOf frepr rest
      (dictInsert k w d)

/-- The weather annotation pass plus the final
pd.merge(route_df, weather_df, on='city', how='inner'): an inner merge
keeps the left rows in left order, each joined to the (unique) weather
row with the same city key; rows without a key would be dropped, which
cannot happen since weather_info is built from the same rows. -/
def annotate (fetch : String → Nat → Nat → Nat → Option DailyRow)
    (normalsStation : String → Option String) (dayOf monthOf : Int → Nat)
    (frepr : Option Rat → List Char) (route : List Stop) :
    Option (List (Stop × Window)) :=
  (buildWeatherInfo fetch normalsStation dayOf monthOf frepr route []).map
    (fun winfo => route.filterMap (fun s => (lookupWin s.city winfo).map (fun w => (s, w))))

/-- data_utils.update_route_table: rebuild the base route with get_route,
then, only if pending edit state exists in the session, delete rows,
apply cell edits, recompute arrival dates and attach the weather
windows.  When no edit state exists the function body after the guard is
skipped and Python falls off the end returning None (none here); a none
from the inner passes models an uncaught exception. -/
def update_route_table (get_lat_lng_dist : Rat × Rat → Rat × Rat → Rat)
    (fetch : String → Nat → Nat → Nat → Option DailyRow)
    (normalsStation : String → Option String) (dayOf monthOf : Int → Nat)
    (frepr : Option Rat → List Char)
    (route_start_date : Int) (route_start_city : String)
    (panam_cities : List CityRec) (session : Option Edits) :
    Option (List (Stop × Window)) :=
  match get_route get_lat_lng_dist route_start_date route_start_city panam_cities with
  | none => none
  | some route0 =>
    match session with
    | none => none
    | some ed =>
      let route1 := deleteRows route0 ed.deleted_rows
      match applyEdits route1 ed.edited_cells with
      | none => none
      | some route2 =>
        match recompute route2 with
        | none => none
        | some route3 => annotate fetch normalsStation dayOf monthOf frepr route3

/-! ## City catalog maintenance (data_utils.remove_city) -/

/-- Python list.remove(x): drop the first occurrence, ValueError (none)
when absent. -/
def listRemove (x : String) : List String → Option (List String)
  | [] => none
  | y :: t => if y = x then some t else (listRemove x t).map (fun t2 => y :: t2)

/-- Replace the value stored under a key of the cities dict (in-place
mutation of cities[country]). -/
def dictSetList (k : String) (v : List String) :
    List (String × List String) → List (String × List String)
  | [] => [(k, v)]
  | (k2, v2) :: t => if k2 = k then (k, v) :: t else (k2, v2) :: dictSetList k v t

/-- data_utils.remove_info_old_city: pop the normals-cache entry keyed by
the city name alone (guarded by a membership test), and drop the
coordinate rows matching both city and country.  The normals payload is
never inspected, hence the type parameter. -/
def remove_info_old_city {α : Type} (panam_cities : List CityRec)
    (city_normals : List (String × α)) (old_city old_country : String) :
    List CityRec × List (String × α) :=
  let normals2 :=
    if old_city ∈ city_normals.map Prod.fst then
      city_normals.eraseP (fun kv => kv.1 == old_city)
    else city_normals
  let panam2 := panam_cities.filter
    (fun r => !((r.city == old_city) && (r.country == old_country)))
  (panam2, normals2)

/-- data_utils.remove_city: first remove_info_old_city, then mutate the
persisted catalog via cities[country].remove(city).  A missing country
key (KeyError) or absent city (ValueError) is none. -/
def remove_city {α : Type} (cities : List (String × List String))
    (panam_cities : List CityRec) (city_normals : List (String × α))
    (country city : String) :
    Option (List (String × List String) × List CityRec × List (String × α)) :=
  let pr := remove_info_old_city panam_cities city_normals city country
  match cities.lookup country with
  | none => none
  | some lst =>
    (listRemove city lst).map (fun lst2 => (dictSetList country lst2 cities, pr.1, pr.2))

/-- The spec's mutual-consistency invariant between the coordinate table
and the normals cache, in the direction the maintainer must preserve:
every coordinate-table row has a normals-cache entry under its city name
(the cache may hold extra entries for cities deliberately excluded for
missing data). -/
def consistentTables {α : Type} (panam_cities : List CityRec)
    (city_normals : List (String × α)) : Prop :=
  ∀ r ∈ panam_cities, r.city ∈ city_normals.map Prod.fst

/-! ## Lemmas about pySplit (for the weather-window round trip) -/

/-- Two consecutive characters d, e occur somewhere in the list. -/
def hasPair (d e : Char) : List Char → Bool
  | [] => false
  | c :: rest =>
    match rest with
    | [] => false
    | c2 :: _ => ((c == d) && (c2 == e)) || hasPair d e rest

lemma startsWith_head_ne (d c : Char) (s l : List Char) (h : d ≠ c) :
    startsWith (d :: s) (c :: l) = false := by
  have : (d == c) = false := beq_eq_false_iff_ne.mpr h
  simp [startsWith, this]

lemma pySplit_cons_sep (d e : Char) (b : List Char) :
    pySplit [d, e] (d :: e :: b) = [] :: pySplit [d, e] b := by
  rw [pySplit]
  rw [if_pos (by simp [startsWith])]
  simp

lemma pySplit_append_sep (d e : Char) (a b : List Char) (hd : d ∉ a) :
    pySplit [d, e] (a ++ d :: e :: b) = a :: pySplit [d, e] b := by
  induction a with
  | nil => simpa using pySplit_cons_sep d e b
  | cons c rest ih =>
    have hdc : d ≠ c := fun h => hd (h ▸ List.mem_cons_self c rest)
    have hrest : d ∉ rest := fun h => hd (List.mem_cons_of_mem _ h)
    rw [List.cons_append, pySplit]
    rw [if_neg (by rw [startsWith_head_ne _ _ _ _ hdc]; simp)]
    rw [ih hrest]

lemma pySplit_no_pair (d e : Char) (l : List Char) (h : hasPair d e l = false) :
    pySplit [d, e] l = [l] := by
  induction l with
  | nil => rw [pySplit]
  | cons c rest ih =>
    cases rest with
    | nil =>
      rw [pySplit]
      rw [if_neg (by simp [startsWith])]
      rw [pySplit]
    | cons c2 t =>
      have h2 : hasPair d e (c2 :: t) = false := by
        have := h
        unfold hasPair at this
        exact (Bool.or_eq_false_iff.mp this).2
      have h1 : ((c == d) && (c2 == e)) = false := by
        have := h
        unfold hasPair at this
        exact (Bool.or_eq_false_iff.mp this).1
      rw [pySplit]
      rw [if_neg ?_]
      · rw [ih h2]
      · intro hcond
        have hsw := hcond.1
        have : startsWith [d, e] (c :: c2 :: t) = ((d == c) && (e == c2)) := by
          simp [startsWith, Bool.and_assoc]
        rw [this] at hsw
        have hcd : d = c := by
          have := (Bool.and_eq_true_iff.mp hsw).1
          exact beq_iff_eq.mp this
        have hce : e = c2 := by
          have := (Bool.and_eq_true_iff.mp hsw).2
          exact beq_iff_eq.mp this
        rw [hcd.symm, hce.symm] at h1
        simp at h1

lemma hasPair_false_of_not_mem_dropLast (d e : Char) (l : List Char)
    (h : d ∉ l.dropLast) : hasPair d e l = false := by
  induction l with
  | nil => rfl
  | cons c rest ih =>
    cases rest with
    | nil => rfl
    | cons c2 t =>
      have hsplit : d ≠ c ∧ d ∉ (c2 :: t).dropLast := by
        rw [List.dropLast_cons₂] at h
        exact ⟨fun hh => h (hh ▸ List.mem_cons_self c _), fun hh => h (List.mem_cons_of_mem _ hh)⟩
      have hcd : (c == d) = false := beq_eq_false_iff_ne.mpr (Ne.symm hsplit.1)
      show ((c == d) && (c2 == e) || hasPair d e (c2 :: t)) = false
      rw [ih hsplit.2, hcd]
      simp

/-! ## Claim C8 -/

/-- C8: formatting numeric values pre, on, post as the weather window
string "({pre}) {on} ({post})" and then extracting the middle value with
extract_middle_target returns exactly on.  Numeric values are modelled by
their formatted character sequences; the hypotheses say the three pieces
are numeral-like (they contain no parenthesis or space characters, which
is true of every Python float or int rendering). -/
theorem C8_window_roundtrip (p o q : List Char)
    (hp : ')' ∉ p) (ho1 : ')' ∉ o) (ho2 : ' ' ∉ o) (hq : ')' ∉ q) :
    extract_middle_target (formatWindow p o q) = o := by
  have hfmt : formatWindow p o q
      = ('(' :: p) ++ ')' :: ' ' :: (o ++ ' ' :: '(' :: (q ++ [')'])) := by
    simp [formatWindow]
  have h1 : pySplit [')', ' '] (formatWindow p o q)
      = ('(' :: p) :: pySplit [')', ' '] (o ++ ' ' :: '(' :: (q ++ [')'])) := by
    rw [hfmt]
    exact pySplit_append_sep _ _ _ _ (by simp [hp])
  have hnp : hasPair ')' ' ' (o ++ ' ' :: '(' :: (q ++ [')'])) = false := by
    apply hasPair_false_of_not_mem_dropLast
    have hform : (o ++ ' ' :: '(' :: (q ++ [')']))
        = (o ++ ' ' :: '(' :: q) ++ [')'] := by simp
    rw [hform, List.dropLast_concat]
    simp [ho1, hq]
  have h2 : pySplit [')', ' '] (o ++ ' ' :: '(' :: (q ++ [')']))
      = [o ++ ' ' :: '(' :: (q ++ [')'])] := pySplit_no_pair _ _ _ hnp
  have h3 : pySplit [' ', '('] (o ++ ' ' :: '(' :: (q ++ [')']))
      = o :: pySplit [' ', '('] (q ++ [')']) := pySplit_append_sep _ _ _ _ ho2
  unfold extract_middle_target
  rw [h1, h2]
  simp [h3]

/-- C8 witness: the round trip at the concrete window "(12.3) 4.5 (-0.7)". -/
theorem C8_window_roundtrip_witness :
    (')' ∉ "12.3".toList) ∧ (')' ∉ "4.5".toList) ∧ (' ' ∉ "4.5".toList)
      ∧ (')' ∉ "-0.7".toList)
      ∧ extract_middle_target (formatWindow "12.3".toList "4.5".toList "-0.7".toList)
        = "4.5".toList :=
  ⟨by decide, by decide, by decide, by decide,
    C8_window_roundtrip "12.3".toList "4.5".toList "-0.7".toList
      (by decide) (by decide) (by decide) (by decide)⟩

/-! ## Lemmas about the route builder -/

lemma pickMin_go (f : CityRec → Rat) :
    ∀ (cs : List CityRec) (c0 : CityRec),
      ((cs.foldl (fun p x => if f x < p.2 then (x, f x) else p) (c0, f c0)).2
          = f (cs.foldl (fun p x => if f x < p.2 then (x, f x) else p) (c0, f c0)).1)
      ∧ ((cs.foldl (fun p x => if f x < p.2 then (x, f x) else p) (c0, f c0)).1 = c0
          ∨ (cs.foldl (fun p x => if f x < p.2 then (x, f x) else p) (c0, f c0)).1 ∈ cs)
      ∧ ((cs.foldl (fun p x => if f x < p.2 then (x, f x) else p) (c0, f c0)).2 ≤ f c0)
      ∧ (∀ x ∈ cs,
          (cs.foldl (fun p x => if f x < p.2 then (x, f x) else p) (c0, f c0)).2 ≤ f x) := by
  intro cs
  induction cs with
  | nil => exact fun c0 => ⟨rfl, Or.inl rfl, le_refl _, by simp⟩
  | cons x cs ih =>
    intro c0
    rw [List.foldl_cons]
    by_cases hx : f x < f c0
    · rw [if_pos hx]
      obtain ⟨h1, h2, h3, h4⟩ := ih x
      refine ⟨h1, ?_, ?_, ?_⟩
      · rcases h2 with h2 | h2
        · exact Or.inr (by rw [h2]; exact List.mem_cons_self x cs)
        · exact Or.inr (List.mem_cons_of_mem _ h2)
      · exact le_of_lt (lt_of_le_of_lt h3 hx)
      · intro y hy
        rcases List.mem_cons.mp hy with rfl | hy2
        · exact h3
        · exact h4 y hy2
    · rw [if_neg hx]
      obtain ⟨h1, h2, h3, h4⟩ := ih c0
      refine ⟨h1, ?_, h3, ?_⟩
      · rcases h2 with h2 | h2
        · exact Or.inl h2
        · exact Or.inr (List.mem_cons_of_mem _ h2)
      · intro y hy
        rcases List.mem_cons.mp hy with rfl | hy2
        · exact le_trans h3 (le_of_not_lt hx)
        · exact h4 y hy2

lemma pickMin_spec (f : CityRec → Rat) (l : List CityRec) (c : CityRec) (d : Rat)
    (h : pickMin f l = some (c, d)) :
    c ∈ l ∧ d = f c ∧ ∀ x ∈ l, d ≤ f x := by
  cases l with
  | nil => simp [pickMin] at h
  | cons c0 cs =>
    obtain ⟨h1, h2, h3, h4⟩ := pickMin_go f cs c0
    have hcd : (c, d) = cs.foldl (fun p x => if f x < p.2 then (x, f x) else p) (c0, f c0) := by
      simpa [pickMin] using h.symm
    have hc : c = (cs.foldl (fun p x => if f x < p.2 then (x, f x) else p) (c0, f c0)).1 := by
      rw [← hcd]
    have hdd : d = (cs.foldl (fun p x => if f x < p.2 then (x, f x) else p) (c0, f c0)).2 := by
      rw [← hcd]
    refine ⟨?_, ?_, ?_⟩
    · rcases h2 with h2 | h2
      · exact (hc ▸ h2) ▸ List.mem_cons_self c0 cs
      · exact List.mem_cons_of_mem _ (hc ▸ h2)
    · rw [hdd, hc]
      exact h1
    · intro x hx
      rcases List.mem_cons.mp hx with rfl | hx2
      · exact hdd ▸ h3
      · exact hdd ▸ h4 x hx2

lemma pickMin_isSome (f : CityRec → Rat) (l : List CityRec) (hl : l ≠ []) :
    (pickMin f l).isSome = true := by
  cases l with
  | nil => exact absurd rfl hl
  | cons c0 cs => simp [pickMin]

lemma filter_city_map (next : List CityRec) (cur : String) :
    (next.filter (fun c => c.city != cur)).map (fun c => c.city)
      = (next.map (fun c => c.city)).filter (fun n => n != cur) := by
  induction next with
  | nil => rfl
  | cons c t ih =>
    cases h : (c.city != cur) with
    | true => simp only [List.filter_cons, List.map_cons, h, if_true]; rw [ih]
    | false => simp only [List.filter_cons, List.map_cons, h]; simp only [Bool.false_eq_true, if_false]; exact ih

lemma perm_cons_filter_ne (l : List String) (a : String) (hnd : l.Nodup) (hm : a ∈ l) :
    l.Perm (a :: l.filter (fun n => n != a)) := by
  induction l with
  | nil => cases hm
  | cons b t ih =>
    rcases List.mem_cons.mp hm with rfl | hmt
    · have hat : a ∉ t := (List.nodup_cons.mp hnd).1
      have hft : t.filter (fun n => n != a) = t := by
        apply List.filter_eq_self.mpr
        intro n hn
        have hna : n ≠ a := fun hh => hat (hh ▸ hn)
        simp [hna]
      simp [hft]
    · have hba : b ≠ a := by
        rintro rfl
        exact (List.nodup_cons.mp hnd).1 hmt
      have hbb : (b != a) = true := by simp [hba]
      rw [List.filter_cons, if_pos hbb]
      exact ((ih (List.nodup_cons.mp hnd).2 hmt).cons b).trans (List.Perm.swap a b _)

lemma perm_strv (l : List CityRec) (a : String)
    (hnd : (l.map (fun c => c.city)).Nodup) (hm : a ∈ l.map (fun c => c.city)) :
    (l.map (fun c => Val.strV c.city)).Perm
      (Val.strV a :: (l.filter (fun c => c.city != a)).map (fun c => Val.strV c.city)) := by
  have h1 : (l.map (fun c => c.city)).Perm
      (a :: (l.map (fun c => c.city)).filter (fun n => n != a)) :=
    perm_cons_filter_ne _ a hnd hm
  have h2 := h1.map Val.strV
  rw [List.map_map] at h2
  have h3 : (l.filter (fun c => c.city != a)).map (fun c => Val.strV c.city)
      = ((l.map (fun c => c.city)).filter (fun n => n != a)).map Val.strV := by
    rw [← filter_city_map, List.map_map]
    rfl
  rw [h3]
  have h4 : l.map (Val.strV ∘ fun c => c.city) = l.map (fun c => Val.strV c.city) := by
    simp [Function.comp]
  rw [h4] at h2
  exact h2

lemma filter_ne_length (l : List CityRec) (a : String)
    (hnd : (l.map (fun c => c.city)).Nodup) (hm : a ∈ l.map (fun c => c.city)) :
    (l.filter (fun c => c.city != a)).length + 1 = l.length := by
  have h1 := (perm_cons_filter_ne (l.map (fun c => c.city)) a hnd hm).length_eq
  have h2 : (l.filter (fun c => c.city != a)).length
      = ((l.map (fun c => c.city)).filter (fun n => n != a)).length := by
    rw [← filter_city_map, List.length_map]
  simp only [List.length_map, List.length_cons] at h1
  omega

lemma routeLoop_fields (dist : Rat × Rat → Rat × Rat → Rat) (sd : Int) :
    ∀ (k : Nat) (cur : String) (next : List CityRec) (racc r : List Stop),
      routeLoop dist k cur next racc = some r →
      (∀ s ∈ racc, s.arrival_date = Val.dateV sd ∧ s.days_to_city = Val.intV 0) →
      ∀ s ∈ r, s.arrival_date = Val.dateV sd ∧ s.days_to_city = Val.intV 0 := by
  intro k
  induction k with
  | zero =>
    intro cur next racc r h hall s hs
    rw [routeLoop] at h
    obtain rfl : racc.reverse = r := Option.some.inj h
    exact hall s (List.mem_reverse.mp hs)
  | succ k ih =>
    intro cur next racc r h hall
    simp only [routeLoop] at h
    cases hpm : pickMin (fun c => dist (c.lat, c.lng) (findCoords next cur))
        (next.filter (fun c => c.city != cur)) with
    | none => rw [hpm] at h; simp at h
    | some p =>
      rw [hpm] at h
      obtain ⟨cmin, dmin⟩ := p
      cases racc with
      | nil => simp at h
      | cons prev racc2 =>
        obtain ⟨ha, hd⟩ := hall prev (List.mem_cons_self _ _)
        simp only [ha, hd, tdAdd] at h
        refine ih cmin.city _ _ r h ?_
        intro s hs
        rcases List.mem_cons.mp hs with rfl | hs2
        · exact ⟨by simp, rfl⟩
        · rcases List.mem_cons.mp hs2 with rfl | hs3
          · exact ⟨rfl, rfl⟩
          · exact hall _ (List.mem_cons_of_mem _ hs3)

lemma routeLoop_perm (dist : Rat × Rat → Rat × Rat → Rat) :
    ∀ (k : Nat) (cur : String) (next : List CityRec) (prev : Stop) (tail : List Stop),
      next.length = k + 1 →
      (next.map (fun c => c.city)).Nodup →
      cur ∈ next.map (fun c => c.city) →
      (∃ t, prev.arrival_date = Val.dateV t) →
      (∃ m, prev.days_to_city = Val.intV m) →
      ∃ r ext, routeLoop dist k cur next (prev :: tail) = some r
        ∧ r.map (fun s => s.city) = ((prev :: tail).reverse.map (fun s => s.city)) ++ ext
        ∧ ext.Perm ((next.filter (fun c => c.city != cur)).map (fun c => Val.strV c.city)) := by
  intro k
  induction k with
  | zero =>
    intro cur next prev tail hlen hnd hmem hta htm
    obtain ⟨c, rfl⟩ := List.length_eq_one.mp hlen
    have hc : cur = c.city := by simpa using hmem
    refine ⟨(prev :: tail).reverse, [], by rw [routeLoop], by simp, ?_⟩
    simp [hc]
  | succ k ih =>
    intro cur next prev tail hlen hnd hmem hta htm
    have hrlen : (next.filter (fun c => c.city != cur)).length + 1 = next.length :=
      filter_ne_length next cur hnd hmem
    have hrlen2 : (next.filter (fun c => c.city != cur)).length = k + 1 := by omega
    have hrne : next.filter (fun c => c.city != cur) ≠ [] := by
      intro hh
      rw [hh] at hrlen2
      simp at hrlen2
    obtain ⟨⟨cmin, dmin⟩, hpm⟩ := Option.isSome_iff_exists.mp
      (pickMin_isSome (fun c => dist (c.lat, c.lng) (findCoords next cur)) _ hrne)
    obtain ⟨hminmem, hdval, hminle⟩ := pickMin_spec _ _ _ _ hpm
    obtain ⟨t, ha⟩ := hta
    obtain ⟨m, hd⟩ := htm
    have hndr : ((next.filter (fun c => c.city != cur)).map (fun c => c.city)).Nodup := by
      rw [filter_city_map]
      exact hnd.filter _
    have hmemr : cmin.city ∈ (next.filter (fun c => c.city != cur)).map (fun c => c.city) :=
      List.mem_map_of_mem _ hminmem
    obtain ⟨r, ext2, hloop, hmap, hperm⟩ := ih cmin.city (next.filter (fun c => c.city != cur))
      { city := Val.strV cmin.city, est_dist := Val.intV 0,
        days_to_city := Val.intV 0, arrival_date := Val.dateV (t + m) }
      ({ city := prev.city, est_dist := mkKm dmin,
          days_to_city := Val.intV m, arrival_date := Val.dateV t } :: tail)
      hrlen2 hndr hmemr ⟨t + m, rfl⟩ ⟨0, rfl⟩
    refine ⟨r, Val.strV cmin.city :: ext2, ?_, ?_, ?_⟩
    · simp only [routeLoop, hpm, ha, hd, tdAdd]
      exact hloop
    · rw [hmap]
      simp [List.reverse_cons]
    · have hps2 := perm_strv (next.filter (fun c => c.city != cur)) cmin.city hndr hmemr
      exact (hperm.cons _).trans hps2.symm

lemma routeLoop_extends (dist : Rat × Rat → Rat × Rat → Rat) :
    ∀ (k : Nat) (cur : String) (next : List CityRec) (prev : Stop) (tail : List Stop),
      k + 1 ≤ next.length →
      (next.map (fun c => c.city)).Nodup →
      cur ∈ next.map (fun c => c.city) →
      (∃ t, prev.arrival_date = Val.dateV t) →
      (∃ m, prev.days_to_city = Val.intV m) →
      ∃ r ext, routeLoop dist k cur next (prev :: tail) = some r
        ∧ r.map (fun s => s.city) = ((prev :: tail).reverse.map (fun s => s.city)) ++ ext
        ∧ ext.length = k := by
  intro k
  induction k with
  | zero =>
    intro cur next prev tail _ _ _ _ _
    exact ⟨(prev :: tail).reverse, [], by rw [routeLoop], by simp, rfl⟩
  | succ k ih =>
    intro cur next prev tail hlen hnd hmem hta htm
    have hrlen : (next.filter (fun c => c.city != cur)).length + 1 = next.length :=
      filter_ne_length next cur hnd hmem
    have hrlen2 : k + 1 ≤ (next.filter (fun c => c.city != cur)).length := by omega
    have hrne : next.filter (fun c => c.city != cur) ≠ [] := by
      intro hh
      rw [hh] at hrlen2
      simp at hrlen2
    obtain ⟨⟨cmin, dmin⟩, hpm⟩ := Option.isSome_iff_exists.mp
      (pickMin_isSome (fun c => dist (c.lat, c.lng) (findCoords next cur)) _ hrne)
    obtain ⟨hminmem, hdval, hminle⟩ := pickMin_spec _ _ _ _ hpm
    obtain ⟨t, ha⟩ := hta
    obtain ⟨m, hd⟩ := htm
    have hndr : ((next.filter (fun c => c.city != cur)).map (fun c => c.city)).Nodup := by
      rw [filter_city_map]
      exact hnd.filter _
    have hmemr : cmin.city ∈ (next.filter (fun c => c.city != cur)).map (fun c => c.city) :=
      List.mem_map_of_mem _ hminmem
    obtain ⟨r, ext2, hloop, hmap, hext⟩ := ih cmin.city (next.filter (fun c => c.city != cur))
      { city := Val.strV cmin.city, est_dist := Val.intV 0,
        days_to_city := Val.intV 0, arrival_date := Val.dateV (t + m) }
      ({ city := prev.city, est_dist := mkKm dmin,
          days_to_city := Val.intV m, arrival_date := Val.dateV t } :: tail)
      hrlen2 hndr hmemr ⟨t + m, rfl⟩ ⟨0, rfl⟩
    refine ⟨r, Val.strV cmin.city :: ext2, ?_, ?_, ?_⟩
    · simp only [routeLoop, hpm, ha, hd, tdAdd]
      exact hloop
    · rw [hmap]
      simp [List.reverse_cons]
    · simp [hext]

/-! ## Concrete test fixtures (used by witnesses and counterexamples) -/

/-- A concrete stand-in for the external geodesic distance (a squared
Euclidean distance, kept abs-free so the kernel can evaluate it). -/
def distC : Rat × Rat → Rat × Rat → Rat :=
  fun a b => (a.1 - b.1) * (a.1 - b.1) + (a.2 - b.2) * (a.2 - b.2)

/-- A concrete Meteostat Daily collaborator: every day of every year has
one row of data, all values 1. -/
def fetchC : String → Nat → Nat → Nat → Option DailyRow := fun _ _ _ _ => some ⟨1, 1, 1, 1, 1⟩

/-- A concrete city_normals station map: every city resolves to station
"ST". -/
def nsC : String → Option String := fun _ => some "ST"

/-- A concrete calendar decomposition: every date maps to day/month 1. -/
def dayC : Int → Nat := fun _ => 1

/-- A concrete float formatter printing nothing. -/
def reprC : Option Rat → List Char := fun _ => []

/-- One-city coordinate table. -/
def panamC1 : List CityRec := [{ country := "CO", city := "A", lat := 0, lng := 0 }]

/-- Two-city coordinate table. -/
def panamC2 : List CityRec :=
  [{ country := "CO", city := "A", lat := 0, lng := 0 },
   { country := "CO", city := "B", lat := 1, lng := 0 }]

/-- Two-city coordinate table used for the absent-start counterexample. -/
def panamZ : List CityRec :=
  [{ country := "X", city := "A", lat := 1, lng := 0 },
   { country := "Y", city := "B", lat := 2, lng := 0 }]

/-! ## Claim C2 -/

/-- C2: for a coordinate table with distinct city names and a start city
present in it, get_route returns a route that visits each input city
exactly once (its city column is a permutation of the input cities),
whose first stop is the start city, and whose length equals the number
of input cities (so a single-city input yields a one-stop route). -/
theorem C2_route_builder (dist : Rat × Rat → Rat × Rat → Rat) (sd : Int) (sc : String)
    (panam : List CityRec)
    (hnd : (panam.map (fun c => c.city)).Nodup)
    (hmem : sc ∈ panam.map (fun c => c.city)) :
    ∃ r, get_route dist sd sc panam = some r
      ∧ (r.map (fun s => s.city)).Perm (panam.map (fun c => Val.strV c.city))
      ∧ (r.map (fun s => s.city)).head? = some (Val.strV sc)
      ∧ r.length = panam.length := by
  have hlen : panam.length = (panam.length - 1) + 1 := by
    cases panam with
    | nil => simp at hmem
    | cons a t => simp
  obtain ⟨r, ext, hloop, hmap, hperm⟩ := routeLoop_perm dist (panam.length - 1) sc panam
    { city := Val.strV sc, est_dist := Val.intV 0, days_to_city := Val.intV 0,
      arrival_date := Val.dateV sd } [] hlen hnd hmem ⟨sd, rfl⟩ ⟨0, rfl⟩
  have hm2 : r.map (fun s => s.city) = Val.strV sc :: ext := by
    rw [hmap]
    simp
  have hextlen : ext.length + 1 = panam.length := by
    have h1 := hperm.length_eq
    rw [List.length_map] at h1
    have h2 := filter_ne_length panam sc hnd hmem
    omega
  refine ⟨r, hloop, ?_, ?_, ?_⟩
  · rw [hm2]
    have hps := perm_strv panam sc hnd hmem
    exact (hperm.cons _).trans hps.symm
  · rw [hm2]
    rfl
  · have := congrArg List.length hm2
    rw [List.length_map] at this
    simp only [List.length_cons] at this
    omega

/-- C2 witness: the theorem applied to the concrete two-city table with
start city "A". -/
theorem C2_route_builder_witness :
    ((panamC2.map (fun c => c.city)).Nodup)
      ∧ ("A" ∈ panamC2.map (fun c => c.city))
      ∧ (get_route distC 0 "A" panamC2).isSome = true
      ∧ (get_route distC 0 "A" panamC2).map List.length = some panamC2.length := by
  obtain ⟨r, hr, hperm, hhead, hlen⟩ := C2_route_builder distC 0 "A" panamC2
    (by decide) (by decide)
  refine ⟨by decide, by decide, ?_, ?_⟩
  · rw [hr]
    rfl
  · rw [hr]
    simp [hlen]

/-! ## Claim C3 -/

/-- C3: at every iteration of the route-builder loop, the appended stop
is an unvisited city (a row of next_cities minus the current city) whose
distance to the current city is minimal among all unvisited cities; it is
appended with zero travel days, and the previous stop's est_dist is set
to the rounded minimal distance suffixed with " km". -/
theorem C3_greedy_step (dist : Rat × Rat → Rat × Rat → Rat) (k : Nat) (cur : String)
    (next : List CityRec) (prev : Stop) (tail : List Stop) (t m : Int)
    (hne : next.filter (fun c => c.city != cur) ≠ [])
    (ha : prev.arrival_date = Val.dateV t) (hd : prev.days_to_city = Val.intV m) :
    ∃ cmin dmin,
      pickMin (fun c => dist (c.lat, c.lng) (findCoords next cur))
          (next.filter (fun c => c.city != cur)) = some (cmin, dmin)
        ∧ cmin ∈ next.filter (fun c => c.city != cur)
        ∧ dmin = dist (cmin.lat, cmin.lng) (findCoords next cur)
        ∧ (∀ c ∈ next.filter (fun c => c.city != cur),
            dmin ≤ dist (c.lat, c.lng) (findCoords next cur))
        ∧ routeLoop dist (k + 1) cur next (prev :: tail)
            = routeLoop dist k cmin.city (next.filter (fun c => c.city != cur))
                ({ city := Val.strV cmin.city, est_dist := Val.intV 0,
                   days_to_city := Val.intV 0, arrival_date := Val.dateV (t + m) }
                  :: { city := prev.city,
                       est_dist := Val.strV (toString (pyRound dmin) ++ " km"),
                       days_to_city := Val.intV m, arrival_date := Val.dateV t }
                  :: tail) := by
  obtain ⟨⟨cmin, dmin⟩, hpm⟩ := Option.isSome_iff_exists.mp (pickMin_isSome _ _ hne)
  obtain ⟨h1, h2, h3⟩ := pickMin_spec _ _ _ _ hpm
  refine ⟨cmin, dmin, hpm, h1, h2, h3, ?_⟩
  simp only [routeLoop, hpm, ha, hd, tdAdd, mkKm]

/-- C3 witness: the step theorem applied to the concrete two-city table
with current city "A". -/
theorem C3_greedy_step_witness :
    (panamC2.filter (fun c => c.city != "A") ≠ [])
      ∧ (pickMin (fun c => distC (c.lat, c.lng) (findCoords panamC2 "A"))
          (panamC2.filter (fun c => c.city != "A"))).isSome = true := by
  obtain ⟨cmin, dmin, hpm, _⟩ := C3_greedy_step distC 0 "A" panamC2
    { city := Val.strV "A", est_dist := Val.intV 0, days_to_city := Val.intV 0,
      arrival_date := Val.dateV 0 } [] 0 0 (by decide) rfl rfl
  exact ⟨by decide, by rw [hpm]; rfl⟩

/-! ## Claim C6 -/

/-- C6 counterexample: with start city "Z" absent from the coordinate
table, get_route does not fail at all: it returns a full-length route
whose first stop carries the absent name (its coordinates having
defaulted to (0, 0)), and input city "B" is silently dropped. -/
theorem C6_counterexample :
    get_route distC 0 "Z" panamZ
      = some [⟨Val.strV "Z", Val.strV "1 km", Val.intV 0, Val.dateV 0⟩,
              ⟨Val.strV "A", Val.intV 0, Val.intV 0, Val.dateV 0⟩] := by
  with_unfolding_all rfl

/-- C6 amended: get_route performs no validation of the start city.
For a table with distinct city names and an absent start city it does
not fail with any error: it returns a route of the same length as the
input whose first stop is the absent start city (one input city is
necessarily missing from it). -/
theorem C6_invalid_start_not_detected (dist : Rat × Rat → Rat × Rat → Rat) (sd : Int)
    (sc : String) (panam : List CityRec)
    (hnd : (panam.map (fun c => c.city)).Nodup)
    (habs : sc ∉ panam.map (fun c => c.city))
    (hne : panam ≠ []) :
    ∃ r, get_route dist sd sc panam = some r
      ∧ r.length = panam.length
      ∧ (r.map (fun s => s.city)).head? = some (Val.strV sc) := by
  cases panam with
  | nil => exact absurd rfl hne
  | cons c0 rest0 =>
    cases rest0 with
    | nil => exact ⟨_, rfl, rfl, rfl⟩
    | cons c1 rest1 =>
      have hfilter : (c0 :: c1 :: rest1).filter (fun c => c.city != sc) = c0 :: c1 :: rest1 := by
        apply List.filter_eq_self.mpr
        intro c hc
        have hcs : c.city ≠ sc := fun hh => habs (hh ▸ List.mem_map_of_mem _ hc)
        simp [hcs]
      have hne2 : (c0 :: c1 :: rest1).filter (fun c => c.city != sc) ≠ [] := by
        rw [hfilter]
        simp
      obtain ⟨⟨cmin, dmin⟩, hpm⟩ := Option.isSome_iff_exists.mp
        (pickMin_isSome (fun c => dist (c.lat, c.lng) (findCoords (c0 :: c1 :: rest1) sc)) _ hne2)
      obtain ⟨h1, _, _⟩ := pickMin_spec _ _ _ _ hpm
      rw [hfilter] at h1
      have hminmem : cmin.city ∈ ((c0 :: c1 :: rest1).filter (fun c => c.city != sc)).map
          (fun c => c.city) := by
        rw [hfilter]
        exact List.mem_map_of_mem _ h1
      have hndr : (((c0 :: c1 :: rest1).filter (fun c => c.city != sc)).map
          (fun c => c.city)).Nodup := by
        rw [hfilter]
        exact hnd
      obtain ⟨r, ext, hloop, hmap, hext⟩ := routeLoop_extends dist rest1.length cmin.city
        ((c0 :: c1 :: rest1).filter (fun c => c.city != sc))
        { city := Val.strV cmin.city, est_dist := Val.intV 0, days_to_city := Val.intV 0,
          arrival_date := Val.dateV (sd + 0) }
        [⟨Val.strV sc, mkKm dmin, Val.intV 0, Val.dateV sd⟩]
        (by rw [hfilter]; simp) hndr hminmem ⟨sd + 0, rfl⟩ ⟨0, rfl⟩
      refine ⟨r, ?_, ?_, ?_⟩
      · show routeLoop dist ((c0 :: c1 :: rest1).length - 1) sc (c0 :: c1 :: rest1)
          [⟨Val.strV sc, Val.intV 0, Val.intV 0, Val.dateV sd⟩] = some r
        have hl : (c0 :: c1 :: rest1).length - 1 = rest1.length + 1 := by simp
        rw [hl]
        simp only [routeLoop, hpm, tdAdd]
        exact hloop
      · have hlm := congrArg List.length hmap
        simp only [List.length_map, List.length_append, List.length_reverse,
          List.length_cons, List.length_nil] at hlm
        simp only [List.length_cons]
        omega
      · rw [hmap]
        simp

/-- C6 witness for the amended claim: concretely, start city "Z" absent
from the two-city table panamZ still produces a two-stop route. -/
theorem C6_invalid_start_witness :
    ((panamZ.map (fun c => c.city)).Nodup)
      ∧ ("Z" ∉ panamZ.map (fun c => c.city))
      ∧ (get_route distC 0 "Z" panamZ).isSome = true
      ∧ (get_route distC 0 "Z" panamZ).map List.length = some 2 := by
  obtain ⟨r, hr, hlen, hhead⟩ := C6_invalid_start_not_detected distC 0 "Z" panamZ
    (by decide) (by decide) (by decide)
  refine ⟨by decide, by decide, ?_, ?_⟩
  · rw [hr]
    rfl
  · rw [hr]
    simp [hlen]
    rfl

/-! ## Lemmas about the route table editor -/

lemma tdAdd_some (x y z : Val) (h : tdAdd x y = some z) :
    ∃ p q, x = Val.dateV p ∧ y = Val.intV q ∧ z = Val.dateV (p + q) := by
  cases x <;> cases y <;> simp [tdAdd] at h
  exact ⟨_, _, rfl, rfl, h.symm⟩

lemma deleteRows_mem (route : List Stop) (del : List Nat) (s : Stop)
    (h : s ∈ deleteRows route del) : s ∈ route := by
  unfold deleteRows at h
  obtain ⟨i, _, hi⟩ := List.mem_filterMap.mp h
  obtain ⟨hlt, hget⟩ := List.getElem?_eq_some_iff.mp hi
  exact hget ▸ List.getElem_mem hlt

lemma setColIdx_c0 (s : Stop) (v : Val) : setColIdx s 0 v = some { s with city := v } := by
  simp [setColIdx]

lemma setColIdx_c1 (s : Stop) (v : Val) : setColIdx s 1 v = some { s with est_dist := v } := by
  norm_num [setColIdx]

lemma setColIdx_c2 (s : Stop) (v : Val) :
    setColIdx s 2 v = some { s with days_to_city := v } := by
  norm_num [setColIdx]

lemma setColIdx_arrival (s s2 : Stop) (j : Int) (v : Val)
    (hj : j = 0 ∨ j = 1 ∨ j = 2) (h : setColIdx s j v = some s2) :
    s2.arrival_date = s.arrival_date := by
  rcases hj with rfl | rfl | rfl
  · rw [setColIdx_c0] at h
    cases h
    rfl
  · rw [setColIdx_c1] at h
    cases h
    rfl
  · rw [setColIdx_c2] at h
    cases h
    rfl

lemma applyEdit_eq (route : List Stop) (r ck : Nat) (v : Val) (s : Stop)
    (hr : route[r]? = some s) :
    applyEdit route r ck v
      = (setColIdx s ((ck : Int) - 1) v).map (fun s2 => route.set r s2) := by
  unfold applyEdit
  rw [hr]

lemma applyEdit_none (route : List Stop) (r ck : Nat) (v : Val)
    (hr : route[r]? = none) : applyEdit route r ck v = none := by
  unfold applyEdit
  rw [hr]

lemma applyEdit_arrival (route r2 : List Stop) (r ck : Nat) (v : Val)
    (hck : ck = 1 ∨ ck = 2 ∨ ck = 3) (h : applyEdit route r ck v = some r2) :
    r2.length = route.length
      ∧ ∀ i : Nat, r2[i]?.map (fun s => s.arrival_date)
          = route[i]?.map (fun s => s.arrival_date) := by
  cases hr : route[r]? with
  | none => rw [applyEdit_none route r ck v hr] at h; simp at h
  | some s =>
    rw [applyEdit_eq route r ck v s hr] at h
    cases hset : setColIdx s ((ck : Int) - 1) v with
    | none => rw [hset] at h; simp at h
    | some s2 =>
      rw [hset] at h
      simp only [Option.map_some'] at h
      obtain rfl : route.set r s2 = r2 := Option.some.inj h
      have hj : ((ck : Int) - 1) = 0 ∨ ((ck : Int) - 1) = 1 ∨ ((ck : Int) - 1) = 2 := by
        rcases hck with rfl | rfl | rfl
        · exact Or.inl (by norm_num)
        · exact Or.inr (Or.inl (by norm_num))
        · exact Or.inr (Or.inr (by norm_num))
      have harr : s2.arrival_date = s.arrival_date := setColIdx_arrival s s2 _ v hj hset
      refine ⟨List.length_set _ _ _, ?_⟩
      intro i
      by_cases hir : i = r
      · subst hir
        have hlt : i < route.length := (List.getElem?_eq_some_iff.mp hr).1
        rw [List.getElem?_set_self hlt, hr]
        simp [harr]
      · rw [List.getElem?_set_ne (fun hh => hir hh.symm)]

lemma applyEdits_arrival :
    ∀ (edits : List (Nat × Nat × Val)) (route r2 : List Stop),
      (∀ e ∈ edits, e.2.1 = 1 ∨ e.2.1 = 2 ∨ e.2.1 = 3) →
      applyEdits route edits = some r2 →
      r2.length = route.length
        ∧ ∀ i : Nat, r2[i]?.map (fun s => s.arrival_date)
            = route[i]?.map (fun s => s.arrival_date) := by
  intro edits
  induction edits with
  | nil =>
    intro route r2 _ h
    obtain rfl : route = r2 := Option.some.inj h
    exact ⟨rfl, fun i => rfl⟩
  | cons e rest ih =>
    intro route r2 hall h
    obtain ⟨r0, ck, v⟩ := e
    simp only [applyEdits] at h
    cases h1 : applyEdit route r0 ck v with
    | none => rw [h1] at h; simp at h
    | some rmid =>
      rw [h1] at h
      simp only [Option.some_bind] at h
      have hck : ck = 1 ∨ ck = 2 ∨ ck = 3 := hall _ (List.mem_cons_self _ _)
      obtain ⟨hl1, hp1⟩ := applyEdit_arrival route rmid r0 ck v hck h1
      obtain ⟨hl2, hp2⟩ := ih rmid r2 (fun e he => hall e (List.mem_cons_of_mem _ he)) h
      exact ⟨hl2.trans hl1, fun i => (hp2 i).trans (hp1 i)⟩

lemma applyEdits_single (route r2 : List Stop) (i : Nat) (v : Val)
    (h : applyEdits route [(i, 3, v)] = some r2) :
    ∃ s, route[i]? = some s ∧ r2 = route.set i { s with days_to_city := v } := by
  simp only [applyEdits] at h
  cases hr : route[i]? with
  | none => rw [applyEdit_none route i 3 v hr] at h; simp at h
  | some s =>
    rw [applyEdit_eq route i 3 v s hr] at h
    have h3 : ((3 : Nat) : Int) - 1 = 2 := by norm_num
    rw [h3, setColIdx_c2] at h
    simp only [Option.map_some', Option.some_bind] at h
    exact ⟨s, rfl, (Option.some.inj h).symm⟩

lemma recompute_cons2 (s t : Stop) (rest : List Stop) :
    recompute (s :: t :: rest)
      = match tdAdd s.arrival_date s.days_to_city with
        | none => none
        | some a => (recompute ({ t with arrival_date := a } :: rest)).map
            (fun r => s :: r) := by
  rw [recompute]

lemma recompute_go :
    ∀ (n : Nat) (l r : List Stop), l.length ≤ n → recompute l = some r →
      r.length = l.length
      ∧ (∀ i : Nat, r[i]?.map (fun s => s.city) = l[i]?.map (fun s => s.city))
      ∧ (∀ i : Nat, r[i]?.map (fun s => s.est_dist) = l[i]?.map (fun s => s.est_dist))
      ∧ (∀ i : Nat, r[i]?.map (fun s => s.days_to_city) = l[i]?.map (fun s => s.days_to_city))
      ∧ r[0]? = l[0]?
      ∧ (∀ i : Nat, i + 1 < r.length →
          ∃ a m, r[i]?.map (fun s => s.arrival_date) = some (Val.dateV a)
            ∧ r[i]?.map (fun s => s.days_to_city) = some (Val.intV m)
            ∧ r[i + 1]?.map (fun s => s.arrival_date) = some (Val.dateV (a + m))) := by
  intro n
  induction n with
  | zero =>
    intro l r hn h
    have hl : l = [] := List.length_eq_zero.mp (Nat.le_zero.mp hn)
    subst hl
    rw [recompute] at h
    obtain rfl : ([] : List Stop) = r := Option.some.inj h
    refine ⟨rfl, fun i => rfl, fun i => rfl, fun i => rfl, rfl, ?_⟩
    intro i hi
    simp at hi
  | succ n ih =>
    intro l r hn h
    match l with
    | [] =>
      rw [recompute] at h
      obtain rfl : ([] : List Stop) = r := Option.some.inj h
      refine ⟨rfl, fun i => rfl, fun i => rfl, fun i => rfl, rfl, ?_⟩
      intro i hi
      simp at hi
    | [s] =>
      rw [recompute] at h
      obtain rfl : [s] = r := Option.some.inj h
      refine ⟨rfl, fun i => rfl, fun i => rfl, fun i => rfl, rfl, ?_⟩
      intro i hi
      simp at hi
    | s :: t :: rest =>
      rw [recompute_cons2] at h
      cases hta : tdAdd s.arrival_date s.days_to_city with
      | none => rw [hta] at h; simp at h
      | some a =>
        rw [hta] at h
        simp only [Option.map_eq_some'] at h
        obtain ⟨r2, hr2, rfl⟩ := h
        have hlen2 : ({ t with arrival_date := a } :: rest).length ≤ n := by
          simp only [List.length_cons] at hn ⊢
          omega
        obtain ⟨ihlen, ihcity, ihest, ihdays, ihhead, ihrec⟩ := ih _ r2 hlen2 hr2
        obtain ⟨p, q, hsp, hsq, haeq⟩ := tdAdd_some _ _ _ hta
        have hlen : (s :: r2).length = (s :: t :: rest).length := by
          simp only [List.length_cons] at ihlen ⊢
          omega
        refine ⟨hlen, ?_, ?_, ?_, by simp, ?_⟩
        · intro i
          cases i with
          | zero => simp
          | succ j =>
            rw [List.getElem?_cons_succ, List.getElem?_cons_succ, ihcity j]
            cases j with
            | zero => simp
            | succ j2 => simp
        · intro i
          cases i with
          | zero => simp
          | succ j =>
            rw [List.getElem?_cons_succ, List.getElem?_cons_succ, ihest j]
            cases j with
            | zero => simp
            | succ j2 => simp
        · intro i
          cases i with
          | zero => simp
          | succ j =>
            rw [List.getElem?_cons_succ, List.getElem?_cons_succ, ihdays j]
            cases j with
            | zero => simp
            | succ j2 => simp
        · intro i hi
          cases i with
          | zero =>
            refine ⟨p, q, ?_, ?_, ?_⟩
            · simp [hsp]
            · simp [hsq]
            · rw [List.getElem?_cons_succ, ihhead]
              simp [haeq]
          | succ j =>
            have hj : j + 1 < r2.length := by
              simp only [List.length_cons] at hi
              omega
            obtain ⟨a2, m2, h1, h2, h3⟩ := ihrec j hj
            exact ⟨a2, m2, by rw [List.getElem?_cons_succ]; exact h1,
              by rw [List.getElem?_cons_succ]; exact h2,
              by rw [List.getElem?_cons_succ]; exact h3⟩

lemma recompute_spec (l r : List Stop) (h : recompute l = some r) :
    r.length = l.length
    ∧ (∀ i : Nat, r[i]?.map (fun s => s.city) = l[i]?.map (fun s => s.city))
    ∧ (∀ i : Nat, r[i]?.map (fun s => s.est_dist) = l[i]?.map (fun s => s.est_dist))
    ∧ (∀ i : Nat, r[i]?.map (fun s => s.days_to_city) = l[i]?.map (fun s => s.days_to_city))
    ∧ r[0]? = l[0]?
    ∧ (∀ i : Nat, i + 1 < r.length →
        ∃ a m, r[i]?.map (fun s => s.arrival_date) = some (Val.dateV a)
          ∧ r[i]?.map (fun s => s.days_to_city) = some (Val.intV m)
          ∧ r[i + 1]?.map (fun s => s.arrival_date) = some (Val.dateV (a + m))) :=
  recompute_go l.length l r (le_refl _) h

/-! ## Lemmas about the weather annotation pass -/

lemma stopWeather_key (fetch : String → Nat → Nat → Nat → Option DailyRow)
    (normalsStation : String → Option String) (dayOf monthOf : Int → Nat)
    (frepr : Option Rat → List Char) (s : Stop) (k : Val) (w : Window)
    (h : stopWeather fetch normalsStation dayOf monthOf frepr s = some (k, w)) :
    k = s.city := by
  unfold stopWeather at h
  cases hd : s.arrival_date <;> rw [hd] at h <;> try simp at h
  cases hc : s.city <;> rw [hc] at h <;> try simp at h
  cases hn : normalsStation _ <;> rw [hn] at h <;> simp at h
  exact h.1.symm

lemma lookupWin_dictInsert_self (k : Val) (w : Window) (d : List (Val × Window)) :
    lookupWin k (dictInsert k w d) = some w := by
  induction d with
  | nil => simp [dictInsert, lookupWin]
  | cons kv t ih =>
    obtain ⟨k2, w2⟩ := kv
    by_cases hk : k2 = k
    · subst hk
      simp [dictInsert, lookupWin]
    · simp only [dictInsert, lookupWin, if_neg hk]
      exact ih

lemma lookupWin_dictInsert_isSome (k k2 : Val) (w : Window) (d : List (Val × Window))
    (h : (lookupWin k d).isSome = true) :
    (lookupWin k (dictInsert k2 w d)).isSome = true := by
  by_cases hkk : k2 = k
  · subst hkk
    rw [lookupWin_dictInsert_self]
    rfl
  · induction d with
    | nil => simp [lookupWin] at h
    | cons kv t ih =>
      obtain ⟨k3, w3⟩ := kv
      by_cases hk3 : k3 = k2
      · subst hk3
        simp only [lookupWin, if_neg hkk] at h
        simp only [dictInsert, if_pos rfl, lookupWin, if_neg hkk]
        exact h
      · simp only [dictInsert, if_neg hk3]
        by_cases hk : k3 = k
        · subst hk
          simp only [lookupWin, if_pos rfl]
          rfl
        · simp only [lookupWin, if_neg hk] at h ⊢
          exact ih h

lemma buildWeatherInfo_keys (fetch : String → Nat → Nat → Nat → Option DailyRow)
    (normalsStation : String → Option String) (dayOf monthOf : Int → Nat)
    (frepr : Option Rat → List Char) :
    ∀ (route : List Stop) (d w : List (Val × Window)),
      buildWeatherInfo fetch normalsStation dayOf monthOf frepr route d = some w →
      (∀ k : Val, (lookupWin k d).isSome = true → (lookupWin k w).isSome = true)
        ∧ ∀ s ∈ route, (lookupWin s.city w).isSome = true := by
  intro route
  induction route with
  | nil =>
    intro d w h
    obtain rfl : d = w := Option.some.inj h
    exact ⟨fun k hk => hk, fun s hs => absurd hs (List.not_mem_nil s)⟩
  | cons s rest ih =>
    intro d w h
    simp only [buildWeatherInfo] at h
    cases hsw : stopWeather fetch normalsStation dayOf monthOf frepr s with
    | none => rw [hsw] at h; simp at h
    | some kw =>
      obtain ⟨k, win⟩ := kw
      rw [hsw] at h
      obtain rfl : k = s.city := stopWeather_key _ _ _ _ _ _ _ _ hsw
      obtain ⟨hmono, hall⟩ := ih (dictInsert s.city win d) w h
      refine ⟨?_, ?_⟩
      · intro k2 hk2
        exact hmono k2 (lookupWin_dictInsert_isSome k2 s.city win d hk2)
      · intro s2 hs2
        rcases List.mem_cons.mp hs2 with rfl | hs3
        · exact hmono s2.city (by rw [lookupWin_dictInsert_self]; rfl)
        · exact hall s2 hs3

lemma annotate_fst (fetch : String → Nat → Nat → Nat → Option DailyRow)
    (normalsStation : String → Option String) (dayOf monthOf : Int → Nat)
    (frepr : Option Rat → List Char) (route : List Stop)
    (final : List (Stop × Window))
    (h : annotate fetch normalsStation dayOf monthOf frepr route = some final) :
    final.map Prod.fst = route := by
  unfold annotate at h
  cases hb : buildWeatherInfo fetch normalsStation dayOf monthOf frepr route [] with
  | none => rw [hb] at h; simp at h
  | some winfo =>
    rw [hb] at h
    simp only [Option.map_some'] at h
    obtain rfl : route.filterMap
        (fun s => (lookupWin s.city winfo).map (fun w => (s, w))) = final :=
      Option.some.inj h
    have hkeys := (buildWeatherInfo_keys fetch normalsStation dayOf monthOf frepr
      route [] winfo hb).2
    clear h hb
    induction route with
    | nil => rfl
    | cons s rest ih =>
      have hks : (lookupWin s.city winfo).isSome = true := hkeys s (List.mem_cons_self _ _)
      obtain ⟨w, hw⟩ := Option.isSome_iff_exists.mp hks
      rw [List.filterMap_cons]
      rw [hw]
      simp only [Option.map_some']
      rw [List.map_cons]
      rw [ih (fun s2 hs2 => hkeys s2 (List.mem_cons_of_mem _ hs2))]

lemma annotate_length (fetch : String → Nat → Nat → Nat → Option DailyRow)
    (normalsStation : String → Option String) (dayOf monthOf : Int → Nat)
    (frepr : Option Rat → List Char) (route : List Stop)
    (final : List (Stop × Window))
    (h : annotate fetch normalsStation dayOf monthOf frepr route = some final) :
    final.length = route.length := by
  have := annotate_fst fetch normalsStation dayOf monthOf frepr route final h
  rw [← this, List.length_map]

lemma update_route_table_inv
    (dist : Rat × Rat → Rat × Rat → Rat) (fetch : String → Nat → Nat → Nat → Option DailyRow)
    (normalsStation : String → Option String) (dayOf monthOf : Int → Nat)
    (frepr : Option Rat → List Char) (sd : Int) (sc : String) (panam : List CityRec)
    (dl : List Nat) (cells : List (Nat × Nat × Val)) (final : List (Stop × Window))
    (h : update_route_table dist fetch normalsStation dayOf monthOf frepr sd sc panam
        (some { deleted_rows := dl, edited_cells := cells }) = some final) :
    ∃ route0 route2 route3,
      get_route dist sd sc panam = some route0
      ∧ applyEdits (deleteRows route0 dl) cells = some route2
      ∧ recompute route2 = some route3
      ∧ annotate fetch normalsStation dayOf monthOf frepr route3 = some final := by
  unfold update_route_table at h
  cases hg : get_route dist sd sc panam with
  | none => rw [hg] at h; simp at h
  | some route0 =>
    simp only [hg] at h
    cases ha : applyEdits (deleteRows route0 dl) cells with
    | none => rw [ha] at h; simp at h
    | some route2 =>
      simp only [ha] at h
      cases hr : recompute route2 with
      | none => rw [hr] at h; simp at h
      | some route3 =>
        simp only [hr] at h
        exact ⟨route0, route2, route3, rfl, ha, hr, h⟩

lemma annotate_proj (fetch : String → Nat → Nat → Nat → Option DailyRow)
    (normalsStation : String → Option String) (dayOf monthOf : Int → Nat)
    (frepr : Option Rat → List Char) (route : List Stop) (final : List (Stop × Window))
    (h : annotate fetch normalsStation dayOf monthOf frepr route = some final)
    (i : Nat) (f : Stop → Val) :
    final[i]?.map (fun p => f p.1) = route[i]?.map f := by
  have hfst := annotate_fst fetch normalsStation dayOf monthOf frepr route final h
  have h2 : (final.map Prod.fst)[i]? = route[i]? := by rw [hfst]
  rw [List.getElem?_map] at h2
  rw [← h2]
  cases final[i]? with
  | none => rfl
  | some p => rfl

/-! ## Claim C10 -/

/-- C10: when no pending edit state exists in the session
(route_table_edits absent), update_route_table returns no route at all:
the base route is rebuilt but the deletion, edit, arrival-date and
weather passes are skipped and the function returns None. -/
theorem C10_no_session_returns_none
    (dist : Rat × Rat → Rat × Rat → Rat) (fetch : String → Nat → Nat → Nat → Option DailyRow)
    (normalsStation : String → Option String) (dayOf monthOf : Int → Nat)
    (frepr : Option Rat → List Char) (sd : Int) (sc : String) (panam : List CityRec) :
    update_route_table dist fetch normalsStation dayOf monthOf frepr sd sc panam none
      = none := by
  unfold update_route_table
  cases get_route dist sd sc panam <;> rfl

/-! ## Claim C1 -/

/-- C1: in every finalized route produced by update_route_table (with the
edits addressing the table editor's columns, whose raw keys are 1, 2 and
3), the arrival date at each position i > 0 is the arrival date at i-1
plus travel days at i-1, and the arrival date at position 0 is the
start date, never recomputed. -/
theorem C1_arrival_invariant
    (dist : Rat × Rat → Rat × Rat → Rat) (fetch : String → Nat → Nat → Nat → Option DailyRow)
    (normalsStation : String → Option String) (dayOf monthOf : Int → Nat)
    (frepr : Option Rat → List Char) (sd : Int) (sc : String) (panam : List CityRec)
    (dl : List Nat) (cells : List (Nat × Nat × Val)) (final : List (Stop × Window))
    (hcols : ∀ e ∈ cells, e.2.1 = 1 ∨ e.2.1 = 2 ∨ e.2.1 = 3)
    (hupd : update_route_table dist fetch normalsStation dayOf monthOf frepr sd sc panam
        (some { deleted_rows := dl, edited_cells := cells }) = some final) :
    (∀ i : Nat, i + 1 < final.length →
        ∃ a m, final[i]?.map (fun p => p.1.arrival_date) = some (Val.dateV a)
          ∧ final[i]?.map (fun p => p.1.days_to_city) = some (Val.intV m)
          ∧ final[i + 1]?.map (fun p => p.1.arrival_date) = some (Val.dateV (a + m)))
      ∧ ∀ p, final[0]? = some p → p.1.arrival_date = Val.dateV sd := by
  obtain ⟨route0, route2, route3, hg, ha, hr, han⟩ :=
    update_route_table_inv dist fetch normalsStation dayOf monthOf frepr sd sc panam
      dl cells final hupd
  have hflen := annotate_length fetch normalsStation dayOf monthOf frepr route3 final han
  obtain ⟨hrlen, hrcity, hrest, hrdays, hrhead, hrrec⟩ := recompute_spec route2 route3 hr
  constructor
  · intro i hi
    have hi3 : i + 1 < route3.length := by rw [← hflen]; exact hi
    obtain ⟨a, m, h1, h2, h3⟩ := hrrec i hi3
    refine ⟨a, m, ?_, ?_, ?_⟩
    · rw [annotate_proj fetch normalsStation dayOf monthOf frepr route3 final han i
        (fun s => s.arrival_date)]
      exact h1
    · rw [annotate_proj fetch normalsStation dayOf monthOf frepr route3 final han i
        (fun s => s.days_to_city)]
      exact h2
    · rw [annotate_proj fetch normalsStation dayOf monthOf frepr route3 final han (i + 1)
        (fun s => s.arrival_date)]
      exact h3
  · intro p hp
    have h0 := annotate_proj fetch normalsStation dayOf monthOf frepr route3 final han 0
      (fun s => s.arrival_date)
    rw [hp] at h0
    simp only [Option.map_some'] at h0
    obtain ⟨hel2, harr2⟩ := applyEdits_arrival cells (deleteRows route0 dl) route2 hcols ha
    have hfields : ∀ s ∈ route0,
        s.arrival_date = Val.dateV sd ∧ s.days_to_city = Val.intV 0 := by
      apply routeLoop_fields dist sd (panam.length - 1) sc panam _ route0 hg
      intro s hs
      have hseq : s = ⟨Val.strV sc, Val.intV 0, Val.intV 0, Val.dateV sd⟩ := by
        simpa using hs
      rw [hseq]
      exact ⟨rfl, rfl⟩
    rw [hrhead] at h0
    rw [harr2 0] at h0
    cases hd0 : (deleteRows route0 dl)[0]? with
    | none =>
      rw [hd0] at h0
      simp at h0
    | some s0 =>
      rw [hd0] at h0
      simp only [Option.map_some'] at h0
      have hs0mem : s0 ∈ route0 := by
        apply deleteRows_mem route0 dl
        obtain ⟨hlt, hget⟩ := List.getElem?_eq_some_iff.mp hd0
        exact hget ▸ List.getElem_mem hlt
      rw [Option.some.inj h0]
      exact (hfields s0 hs0mem).1

/-! ## Claim C4 -/

/-- C4: applying a cell edit addressed to row i and the travel-days
column (raw column key 3, which the source decodes to positional column
2 = days_to_city; per the spec's numbering column 0 is city and column 1
is the distance display) yields a finalized route whose post-deletion
stop i has days_to_city set to the new value while its city and distance
display are unchanged. -/
theorem C4_edit_travel_days
    (dist : Rat × Rat → Rat × Rat → Rat) (fetch : String → Nat → Nat → Nat → Option DailyRow)
    (normalsStation : String → Option String) (dayOf monthOf : Int → Nat)
    (frepr : Option Rat → List Char) (sd : Int) (sc : String) (panam : List CityRec)
    (dl : List Nat) (i : Nat) (v : Val) (base : List Stop) (final : List (Stop × Window))
    (hb : get_route dist sd sc panam = some base)
    (hupd : update_route_table dist fetch normalsStation dayOf monthOf frepr sd sc panam
        (some { deleted_rows := dl, edited_cells := [(i, 3, v)] }) = some final) :
    final[i]?.map (fun p => p.1.days_to_city) = some v
      ∧ final[i]?.map (fun p => p.1.city) = (deleteRows base dl)[i]?.map (fun s => s.city)
      ∧ final[i]?.map (fun p => p.1.est_dist)
          = (deleteRows base dl)[i]?.map (fun s => s.est_dist) := by
  obtain ⟨route0, route2, route3, hg, ha, hr, han⟩ :=
    update_route_table_inv dist fetch normalsStation dayOf monthOf frepr sd sc panam
      dl [(i, 3, v)] final hupd
  obtain rfl : base = route0 := Option.some.inj (hb.symm.trans hg)
  obtain ⟨s, hs, rfl⟩ := applyEdits_single (deleteRows base dl) route2 i v ha
  obtain ⟨hrlen, hrcity, hrest, hrdays, hrhead, hrrec⟩ := recompute_spec _ route3 hr
  have hlt : i < (deleteRows base dl).length := (List.getElem?_eq_some_iff.mp hs).1
  have hset : ((deleteRows base dl).set i
      { s with days_to_city := v })[i]? = some { s with days_to_city := v } :=
    List.getElem?_set_self hlt
  refine ⟨?_, ?_, ?_⟩
  · rw [annotate_proj fetch normalsStation dayOf monthOf frepr route3 final han i
      (fun s => s.days_to_city), hrdays i, hset]
    rfl
  · rw [annotate_proj fetch normalsStation dayOf monthOf frepr route3 final han i
      (fun s => s.city), hrcity i, hset, hs]
    rfl
  · rw [annotate_proj fetch normalsStation dayOf monthOf frepr route3 final han i
      (fun s => s.est_dist), hrest i, hset, hs]
    rfl

/-! ## Claim C5 -/

/-- C5 amended (provable part): an edited_cells entry whose row is past
the end of the post-deletion table, or whose raw column key is at least 5
(decoded positional column at least 4, outside the four route columns),
makes update_route_table fail: no finalized table is returned. -/
theorem C5_out_of_range_edit_fails
    (dist : Rat × Rat → Rat × Rat → Rat) (fetch : String → Nat → Nat → Nat → Option DailyRow)
    (normalsStation : String → Option String) (dayOf monthOf : Int → Nat)
    (frepr : Option Rat → List Char) (sd : Int) (sc : String) (panam : List CityRec)
    (dl : List Nat) (r ck : Nat) (v : Val) (base : List Stop)
    (hb : get_route dist sd sc panam = some base)
    (hbad : (deleteRows base dl).length ≤ r ∨ 5 ≤ ck) :
    update_route_table dist fetch normalsStation dayOf monthOf frepr sd sc panam
      (some { deleted_rows := dl, edited_cells := [(r, ck, v)] }) = none := by
  have happ : applyEdits (deleteRows base dl) [(r, ck, v)] = none := by
    simp only [applyEdits]
    rcases hbad with hrow | hcol
    · rw [applyEdit_none _ _ _ _ (List.getElem?_eq_none hrow)]
      rfl
    · cases hrg : (deleteRows base dl)[r]? with
      | none =>
        rw [applyEdit_none _ _ _ _ hrg]
        rfl
      | some s =>
        rw [applyEdit_eq _ _ _ _ s hrg]
        have hck5 : (5 : Int) ≤ (ck : Int) := by exact_mod_cast hcol
        have hset : setColIdx s ((ck : Int) - 1) v = none := by
          unfold setColIdx
          rw [if_neg (by omega), if_neg (by omega), if_neg (by omega), if_neg (by omega)]
        rw [hset]
        rfl
  unfold update_route_table
  simp only [hb, happ]

/-! ## Concrete finalized-route fixtures -/

/-- The weather window produced by the trivial formatter reprC:
every variable displays as "() ()". -/
def winC : Window :=
  { tavg := ['(', ')', ' ', ' ', '(', ')'], tmin := ['(', ')', ' ', ' ', '(', ')'],
    tmax := ['(', ')', ' ', ' ', '(', ')'], prcp := ['(', ')', ' ', ' ', '(', ')'],
    snow := ['(', ')', ' ', ' ', '(', ')'] }

/-- The base route get_route builds from panamC2 with start "A". -/
def baseC : List Stop :=
  [⟨Val.strV "A", Val.strV "1 km", Val.intV 0, Val.dateV 0⟩,
   ⟨Val.strV "B", Val.intV 0, Val.intV 0, Val.dateV 0⟩]

/-- The finalized route for panamC2, start "A", start date 0, with the
single edit setting row 0's travel days to 2. -/
def finalC : List (Stop × Window) :=
  [(⟨Val.strV "A", Val.strV "1 km", Val.intV 2, Val.dateV 0⟩, winC),
   (⟨Val.strV "B", Val.intV 0, Val.intV 0, Val.dateV 2⟩, winC)]

/-- C1 witness: the arrival-date invariant evaluated on the concrete
finalized route finalC (arrival at stop 1 is start date 0 plus the
edited 2 travel days; arrival at stop 0 is the start date). -/
theorem C1_arrival_invariant_witness :
    update_route_table distC fetchC nsC dayC dayC reprC 0 "A" panamC2
        (some { deleted_rows := [], edited_cells := [(0, 3, Val.intV 2)] }) = some finalC
      ∧ finalC[1]?.map (fun p => p.1.arrival_date) = some (Val.dateV 2)
      ∧ (∀ p, finalC[0]? = some p → p.1.arrival_date = Val.dateV 0) := by
  have hupd : update_route_table distC fetchC nsC dayC dayC reprC 0 "A" panamC2
      (some { deleted_rows := [], edited_cells := [(0, 3, Val.intV 2)] }) = some finalC := by
    with_unfolding_all rfl
  have h := C1_arrival_invariant distC fetchC nsC dayC dayC reprC 0 "A" panamC2
    [] [(0, 3, Val.intV 2)] finalC (by decide) hupd
  refine ⟨hupd, ?_, h.2⟩
  obtain ⟨a, m, h1, h2, h3⟩ := h.1 0 (by decide)
  have e1 : finalC[0]?.map (fun p => p.1.arrival_date) = some (Val.dateV 0) := rfl
  have e2 : finalC[0]?.map (fun p => p.1.days_to_city) = some (Val.intV 2) := rfl
  have ha : a = 0 := (Val.dateV.inj (Option.some.inj (e1.symm.trans h1))).symm
  have hm : m = 2 := (Val.intV.inj (Option.some.inj (e2.symm.trans h2))).symm
  rw [ha, hm] at h3
  simpa using h3

/-- C4 witness: the edit theorem evaluated on the concrete finalized
route finalC (row 0's travel days become 2, its city and distance
display are unchanged). -/
theorem C4_edit_travel_days_witness :
    get_route distC 0 "A" panamC2 = some baseC
      ∧ finalC[0]?.map (fun p => p.1.days_to_city) = some (Val.intV 2)
      ∧ finalC[0]?.map (fun p => p.1.city) = (deleteRows baseC [])[0]?.map (fun s => s.city)
      ∧ finalC[0]?.map (fun p => p.1.est_dist)
          = (deleteRows baseC [])[0]?.map (fun s => s.est_dist) := by
  have hb : get_route distC 0 "A" panamC2 = some baseC := by
    with_unfolding_all rfl
  have hupd : update_route_table distC fetchC nsC dayC dayC reprC 0 "A" panamC2
      (some { deleted_rows := [], edited_cells := [(0, 3, Val.intV 2)] }) = some finalC := by
    with_unfolding_all rfl
  have h := C4_edit_travel_days distC fetchC nsC dayC dayC reprC 0 "A" panamC2
    [] 0 (Val.intV 2) baseC finalC hb hupd
  exact ⟨hb, h.1, h.2.1, h.2.2⟩

/-- C5 counterexample: an edited_cells entry writing the non-integer
string "x" into the travel-days column of the last (single) row does not
fail: the finalized table is returned (its travel-days cell holding the
string), because the arrival-date pass never reads the last row's
travel days.  The claim says every such edit fails with InvalidEdit. -/
theorem C5_counterexample :
    (update_route_table distC fetchC nsC dayC dayC reprC 0 "A" panamC1
      (some { deleted_rows := [], edited_cells := [(0, 3, Val.strV "x")] })).isSome
      = true := by
  with_unfolding_all rfl

/-- C5 witness for the amended claim: a row index past the end of the
one-row table makes update_route_table return no table. -/
theorem C5_out_of_range_edit_fails_witness :
    get_route distC 0 "A" panamC1
        = some [⟨Val.strV "A", Val.intV 0, Val.intV 0, Val.dateV 0⟩]
      ∧ update_route_table distC fetchC nsC dayC dayC reprC 0 "A" panamC1
          (some { deleted_rows := [], edited_cells := [(5, 3, Val.intV 1)] }) = none := by
  have hb : get_route distC 0 "A" panamC1
      = some [⟨Val.strV "A", Val.intV 0, Val.intV 0, Val.dateV 0⟩] := rfl
  refine ⟨hb, C5_out_of_range_edit_fails distC fetchC nsC dayC dayC reprC 0 "A" panamC1
    [] 5 3 (Val.intV 1) _ hb (Or.inl (by decide))⟩

/-! ## Claim C7 -/

/-- A Meteostat Daily collaborator whose data distinguishes the year
2020: that year's average temperature is 30, every other year's is 0. -/
def fetch20 : String → Nat → Nat → Nat → Option DailyRow :=
  fun _ year _ _ => some ⟨if year = 2020 then 30 else 0, 0, 0, 0, 0⟩

/-- C7: the code aggregates Python range(START_YEAR, END_YEAR)
= 1991..2019 and so excludes END_YEAR = 2020, contradicting the
configured 1991-2020 climate period (the function's own docstring, the
Timespan label and the inclusive Normals(station, 1991, 2020) call):
at a station whose 2020 daily value is 30 and whose other years are 0,
get_historical_dailies returns mean 0 while the spec-modelled inclusive
aggregation returns 1. -/
theorem C7_excludes_end_year :
    END_YEAR ∉ hd_years
      ∧ (2019 : Nat) ∈ hd_years
      ∧ (get_historical_dailies fetch20 "S" 1 1).tavg = some 0
      ∧ (get_historical_dailies_spec fetch20 "S" 1 1).tavg = some 1 := by
  refine ⟨by decide, by decide, ?_, ?_⟩
  · with_unfolding_all rfl
  · with_unfolding_all rfl

/-! ## Claim C9 -/

lemma keys_eraseP {α : Type} :
    ∀ (l : List (String × α)) (c : String), (l.map Prod.fst).Nodup →
      ∀ k, k ∈ (l.eraseP (fun kv => kv.1 == c)).map Prod.fst
        ↔ (k ∈ l.map Prod.fst ∧ k ≠ c) := by
  intro l
  induction l with
  | nil =>
    intro c _ k
    simp
  | cons kv t ih =>
    intro c hnd k
    obtain ⟨k0, v0⟩ := kv
    rw [List.map_cons] at hnd
    have hnd2 := List.nodup_cons.mp hnd
    by_cases h0 : k0 = c
    · subst h0
      rw [List.eraseP_cons_of_pos (by simp)]
      have hct : k0 ∉ t.map Prod.fst := hnd2.1
      constructor
      · intro hk
        rw [List.map_cons]
        refine ⟨List.mem_cons_of_mem _ hk, ?_⟩
        rintro rfl
        exact hct hk
      · rintro ⟨hk, hne⟩
        rw [List.map_cons] at hk
        rcases List.mem_cons.mp hk with rfl | hk2
        · exact absurd rfl hne
        · exact hk2
    · rw [List.eraseP_cons_of_neg (by simp [h0])]
      have hndt : (t.map Prod.fst).Nodup := hnd2.2
      have iht := ih c hndt k
      simp only [List.map_cons, List.mem_cons]
      constructor
      · rintro (rfl | hk2)
        · exact ⟨Or.inl rfl, h0⟩
        · obtain ⟨hk, hne⟩ := iht.mp hk2
          exact ⟨Or.inr hk, hne⟩
      · rintro ⟨hk | hk, hne⟩
        · exact Or.inl hk
        · exact Or.inr (iht.mpr ⟨hk, hne⟩)

lemma remove_keys {α : Type} (normals : List (String × α)) (c : String)
    (hnd : (normals.map Prod.fst).Nodup) (k : String) :
    k ∈ ((if c ∈ normals.map Prod.fst then normals.eraseP (fun kv => kv.1 == c)
        else normals).map Prod.fst)
      ↔ (k ∈ normals.map Prod.fst ∧ k ≠ c) := by
  by_cases hc : c ∈ normals.map Prod.fst
  · rw [if_pos hc]
    exact keys_eraseP normals c hnd k
  · rw [if_neg hc]
    constructor
    · intro hk
      refine ⟨hk, ?_⟩
      rintro rfl
      exact hc hk
    · exact fun h => h.1

/-- C9 amended: remove_city removes the coordinate rows for exactly the
(country, city) pair, but pops the normals-cache entry keyed by the city
NAME alone.  Under the extra hypothesis that the removed name identifies
a single country (no same-named city elsewhere in the coordinate table),
the two tables stay mutually consistent. -/
theorem C9_remove_city_consistent {α : Type} (cities : List (String × List String))
    (panam : List CityRec) (normals : List (String × α)) (country city : String)
    (c2 : List (String × List String)) (p2 : List CityRec) (n2 : List (String × α))
    (hnd : (normals.map Prod.fst).Nodup)
    (hcons : consistentTables panam normals)
    (huniq : ∀ r ∈ panam, r.city = city → r.country = country)
    (hrc : remove_city cities panam normals country city = some (c2, p2, n2)) :
    p2 = panam.filter (fun r => !((r.city == city) && (r.country == country)))
      ∧ (∀ k, k ∈ n2.map Prod.fst ↔ (k ∈ normals.map Prod.fst ∧ k ≠ city))
      ∧ consistentTables p2 n2 := by
  unfold remove_city remove_info_old_city at hrc
  cases hl : cities.lookup country with
  | none => rw [hl] at hrc; simp at hrc
  | some lst =>
    simp only [hl] at hrc
    cases hlr : listRemove city lst with
    | none => rw [hlr] at hrc; simp at hrc
    | some lst2 =>
      simp only [hlr, Option.map_some', Option.some.injEq, Prod.mk.injEq] at hrc
      obtain ⟨_, hp2, hn2⟩ := hrc
      subst hp2
      subst hn2
      refine ⟨rfl, fun k => remove_keys normals city hnd k, ?_⟩
      intro r hr
      obtain ⟨hrp, hrf⟩ := List.mem_filter.mp hr
      have hrne : r.city ≠ city := by
        intro hh
        have hcountry := huniq r hrp hh
        simp [hh, hcountry] at hrf
      exact (remove_keys normals city hnd r.city).mpr ⟨hcons r hrp, hrne⟩

instance {α : Type} (panam_cities : List CityRec) (city_normals : List (String × α)) :
    Decidable (consistentTables panam_cities city_normals) := by
  unfold consistentTables
  infer_instance

/-- The catalog, coordinate table and normals cache of the C9
counterexample: two countries "A" and "B" each contain a city named "X";
the normals cache is keyed by city name alone, so it holds a single
entry "X" backing both rows. -/
def citiesX : List (String × List String) := [("A", ["X"]), ("B", ["X"])]

/-- Coordinate table of the C9 counterexample. -/
def panamX : List CityRec :=
  [{ country := "A", city := "X", lat := 0, lng := 0 },
   { country := "B", city := "X", lat := 1, lng := 1 }]

/-- Normals cache of the C9 counterexample (payload irrelevant). -/
def normalsX : List (String × Nat) := [("X", 7)]

/-- C9 counterexample: removing city "X" of country "A" pops the normals
entry keyed "X", which also backed the same-named city of country "B";
the surviving coordinate row ("B", "X") is left without a normals entry,
so the state is no longer mutually consistent. -/
theorem C9_counterexample :
    consistentTables panamX normalsX
      ∧ remove_city citiesX panamX normalsX "A" "X"
          = some ([("A", ([] : List String)), ("B", ["X"])],
              [{ country := "B", city := "X", lat := 1, lng := 1 }],
              ([] : List (String × Nat)))
      ∧ ¬ consistentTables
          [({ country := "B", city := "X", lat := 1, lng := 1 } : CityRec)]
          ([] : List (String × Nat)) := by
  refine ⟨by decide, by with_unfolding_all rfl, by decide⟩

/-- One-country fixture for the C9 witness. -/
def citiesW : List (String × List String) := [("A", ["X", "Y"])]

/-- Coordinate table for the C9 witness. -/
def panamW : List CityRec :=
  [{ country := "A", city := "X", lat := 0, lng := 0 },
   { country := "A", city := "Y", lat := 1, lng := 1 }]

/-- Normals cache for the C9 witness. -/
def normalsW : List (String × Nat) := [("X", 1), ("Y", 2)]

/-- C9 witness: the amended theorem applied to a state where the removed
city name occurs in a single country; consistency is preserved. -/
theorem C9_remove_city_consistent_witness :
    ((normalsW.map Prod.fst).Nodup)
      ∧ consistentTables panamW normalsW
      ∧ ([({ country := "A", city := "Y", lat := 1, lng := 1 } : CityRec)]
          = panamW.filter (fun r => !((r.city == "X") && (r.country == "A"))))
      ∧ ("X" ∈ ([("Y", 2)] : List (String × Nat)).map Prod.fst
          ↔ ("X" ∈ normalsW.map Prod.fst ∧ "X" ≠ "X"))
      ∧ consistentTables
          [({ country := "A", city := "Y", lat := 1, lng := 1 } : CityRec)]
          ([("Y", 2)] : List (String × Nat)) := by
  have hrc : remove_city citiesW panamW normalsW "A" "X"
      = some ([("A", ["Y"])],
          [{ country := "A", city := "Y", lat := 1, lng := 1 }],
          ([("Y", 2)] : List (String × Nat))) := by
    with_unfolding_all rfl
  have h := C9_remove_city_consistent citiesW panamW normalsW "A" "X" _ _ _
    (by decide) (by decide) (by decide) hrc
  exact ⟨by decide, by decide, h.1, h.2.1 "X", h.2.2⟩
